import Mathlib

/-!
Verification of the size-hinter library: a shallow embedding of the
SizeHint interval type and the two iterator adaptors (ExactLen, HintSize),
with theorems settling the specified properties.

Rust usize is modelled by Nat: the only arithmetic involved is
saturating or checked subtraction and comparisons, which agree with Nat.
Rust saturating_sub 1 is Nat subtraction (already floored at zero).
A Rust panic in a constructor is modelled by a distinguished result
(none, or ConstructResult.panicked); fallible paths return Except.
An iterator is modelled as the list of elements it has left to yield,
together with the raw size hint it reports (RawIter).
-/

/-- Error type for invalid size hints (size_hint.rs, InvalidSizeHint). -/
structure InvalidSizeHint where
deriving DecidableEq, Repr

/-- The SizeHint value type (size_hint.rs): an inclusive lower bound and an
optional inclusive upper bound. -/
structure SizeHint where
  lower : Nat
  upper : Option Nat
deriving DecidableEq, Repr

namespace SizeHint

/-- SizeHint::UNIVERSAL. -/
def UNIVERSAL : SizeHint := { lower := 0, upper := none }

/-- SizeHint::ZERO. -/
def ZERO : SizeHint := { lower := 0, upper := some 0 }

/-- SizeHint::try_new (size_hint.rs lines 81-86). -/
def try_new (lower : Nat) (upper : Option Nat) : Except InvalidSizeHint SizeHint :=
  match upper with
  | some u => if lower > u then .error ⟨⟩ else .ok { lower := lower, upper := some u }
  | none => .ok { lower := lower, upper := none }

/-- SizeHint::new (size_hint.rs lines 54-59); none models the panic branch. -/
def new (lower : Nat) (upper : Option Nat) : Option SizeHint :=
  match try_new lower upper with
  | .ok hint => some hint
  | .error _ => none

/-- SizeHint::try_bounded (size_hint.rs lines 131-136). -/
def try_bounded (lower upper : Nat) : Except InvalidSizeHint SizeHint :=
  if lower > upper then .error ⟨⟩ else .ok { lower := lower, upper := some upper }

/-- SizeHint::bounded (size_hint.rs lines 104-109); none models the panic branch. -/
def bounded (lower upper : Nat) : Option SizeHint :=
  match try_bounded lower upper with
  | .ok hint => some hint
  | .error _ => none

/-- SizeHint::unbounded (size_hint.rs lines 148-150). -/
def unbounded (lower : Nat) : SizeHint := { lower := lower, upper := none }

/-- SizeHint::exact (size_hint.rs lines 162-164). -/
def exact (len : Nat) : SizeHint := { lower := len, upper := some len }

/-- SizeHint::as_hint (size_hint.rs lines 169-171). -/
def as_hint (s : SizeHint) : Nat × Option Nat := (s.lower, s.upper)

/-- SizeHint::decrement (size_hint.rs lines 186-188); Nat subtraction is
Rust saturating_sub. -/
def decrement (s : SizeHint) : SizeHint :=
  { lower := s.lower - 1, upper := s.upper.map (fun u => u - 1) }

/-- SizeHint::overlaps (size_hint.rs lines 206-213). -/
def overlaps (s other : SizeHint) : Bool :=
  match s.as_hint, other.as_hint with
  | (aLower, some aUpper), (bLower, some bUpper) =>
      decide (aLower ≤ bUpper) && decide (bLower ≤ aUpper)
  | (_, some aUpper), (bLower, none) => decide (aUpper ≥ bLower)
  | (aLower, none), (_, some bUpper) => decide (bUpper ≥ aLower)
  | (_, none), (_, none) => true

/-- SizeHint::disjoint (size_hint.rs lines 230-232). -/
def disjoint (s other : SizeHint) : Bool :=
  !(overlaps s other)

/-- SizeHint::subset_of (size_hint.rs lines 250-256). -/
def subset_of (s other : SizeHint) : Bool :=
  match s.as_hint, other.as_hint with
  | (aLow, some aUp), (bLow, some bUp) => decide (aLow ≥ bLow) && decide (aUp ≤ bUp)
  | (aLow, _), (bLow, none) => decide (aLow ≥ bLow)
  | (_, none), (_, some _) => false

/-- The contains test a SizeHint inherits from its RangeBounds implementation
(size_hint.rs lines 329-341): the start bound is Included lower, the end bound
is Included upper or Unbounded. -/
def contains (s : SizeHint) (n : Nat) : Bool :=
  decide (s.lower ≤ n) &&
    (match s.upper with
     | some u => decide (n ≤ u)
     | none => true)

/-- TryFrom of the raw tuple (size_hint.rs lines 259-269). -/
def try_from_hint (hint : Nat × Option Nat) : Except InvalidSizeHint SizeHint :=
  match hint with
  | (lower, some upper) => try_bounded lower upper
  | (lower, none) => .ok (unbounded lower)

/-- Rust usize::checked_sub. -/
def checkedSub (a b : Nat) : Option Nat :=
  if a < b then none else some (a - b)

/-- TryFrom of a half-open Range (size_hint.rs lines 278-286): the Rust field
named end is passed here as the second argument stop. -/
def tryFromRange (start stop : Nat) : Except InvalidSizeHint SizeHint :=
  match checkedSub stop 1 with
  | none => .error ⟨⟩
  | some e => try_bounded start e

/-- The documented invariant of a SizeHint (size_hint.rs lines 10-12):
when the upper bound is present, lower must not exceed it. -/
def isValid (s : SizeHint) : Bool :=
  match s.upper with
  | some u => decide (s.lower ≤ u)
  | none => true

end SizeHint

/-- A wrapped producer at construction time: the elements it will yield and
the raw size hint its Iterator::size_hint reports. The two are independent,
so malformed producers (such as InvalidIterator, whose reported hint is
(10, Some(5))) are representable. -/
structure RawIter (α : Type) where
  elems : List α
  size_hint : Nat × Option Nat

/-- Outcome of running a Rust constructor that may panic or return a Result:
panicked models a panic (an expect on a malformed wrapped hint, or the
unwrapping done by the panicking entry points). -/
inductive ConstructResult (σ : Type) where
  | panicked : ConstructResult σ
  | error : InvalidSizeHint → ConstructResult σ
  | ok : σ → ConstructResult σ
deriving DecidableEq, Repr

/-- The ExactLen adaptor state (exact_len.rs lines 51-56): the wrapped
iterator, modelled as the list of elements it has left, and the live count. -/
structure ExactLen (α : Type) where
  iterator : List α
  len : Nat
deriving DecidableEq, Repr

namespace ExactLen

/-- ExactLen::try_new (exact_len.rs lines 98-102): the expect on the wrapped
hint panics when that hint is malformed; otherwise the declared len must be
contained in the wrapped interval or InvalidSizeHint is returned. -/
def try_new (iterator : RawIter α) (len : Nat) : ConstructResult (ExactLen α) :=
  match SizeHint.try_from_hint iterator.size_hint with
  | .error _ => .panicked
  | .ok wrapped =>
    if !(wrapped.contains len) then .error ⟨⟩
    else .ok { iterator := iterator.elems, len := len }

/-- ExactLen::new (exact_len.rs lines 77-79): try_new followed by expect,
which turns the error case into a panic. -/
def new (iterator : RawIter α) (len : Nat) : ConstructResult (ExactLen α) :=
  match try_new iterator len with
  | .error _ => .panicked
  | r => r

/-- Iterator::next for ExactLen (exact_len.rs lines 125-133): on a yielded
item the count is decremented saturating; on None nothing changes. -/
def next (s : ExactLen α) : Option α × ExactLen α :=
  match s.iterator with
  | [] => (none, s)
  | item :: rest => (some item, { iterator := rest, len := s.len - 1 })

/-- DoubleEndedIterator::next_back for ExactLen (exact_len.rs lines 150-158). -/
def next_back (s : ExactLen α) : Option α × ExactLen α :=
  match s.iterator.getLast? with
  | none => (none, s)
  | some item => (some item, { iterator := s.iterator.dropLast, len := s.len - 1 })

/-- Iterator::size_hint for ExactLen (exact_len.rs lines 136-138). -/
def size_hint (s : ExactLen α) : Nat × Option Nat :=
  (SizeHint.exact s.len).as_hint

/-- One poll from the chosen end: false is next, true is next_back. -/
def poll (s : ExactLen α) (back : Bool) : Option α × ExactLen α :=
  if back then s.next_back else s.next

/-- Runs a sequence of polls and counts how many yielded an element. -/
def runPolls : ExactLen α → List Bool → ExactLen α × Nat
  | s, [] => (s, 0)
  | s, e :: rest =>
    let step := s.poll e
    let tail := runPolls step.2 rest
    (tail.1, (if step.1.isSome then 1 else 0) + tail.2)

end ExactLen

/-- The HintSize adaptor state (hint_size.rs lines 72-77): the wrapped
iterator, modelled as the list of elements it has left, and the live hint. -/
structure HintSize (α : Type) where
  iterator : List α
  hint : SizeHint
deriving DecidableEq, Repr

namespace HintSize

/-- HintSize::try_new_impl (hint_size.rs lines 91-95): the expect on the
wrapped hint panics when it is malformed; otherwise the declared hint must
overlap the wrapped interval or InvalidSizeHint is returned. -/
def try_new_impl (iterator : RawIter α) (hint : SizeHint) : ConstructResult (HintSize α) :=
  match SizeHint.try_from_hint iterator.size_hint with
  | .error _ => .panicked
  | .ok wrapped =>
    if !(SizeHint.overlaps hint wrapped) then .error ⟨⟩
    else .ok { iterator := iterator.elems, hint := hint }

/-- HintSize::try_new (hint_size.rs lines 153-158): the caller bounds are
validated by try_bounded before the wrapped hint is ever inspected. -/
def try_new (iterator : RawIter α) (lower upper : Nat) : ConstructResult (HintSize α) :=
  match SizeHint.try_bounded lower upper with
  | .error e => .error e
  | .ok hint => try_new_impl iterator hint

/-- HintSize::new (hint_size.rs lines 116-122): try_new followed by expect. -/
def new (iterator : RawIter α) (lower upper : Nat) : ConstructResult (HintSize α) :=
  match try_new iterator lower upper with
  | .error _ => .panicked
  | r => r

/-- HintSize::try_min (hint_size.rs lines 204-206). -/
def try_min (iterator : RawIter α) (lower : Nat) : ConstructResult (HintSize α) :=
  try_new_impl iterator (SizeHint.unbounded lower)

/-- HintSize::min (hint_size.rs lines 176-178): try_min followed by expect. -/
def min (iterator : RawIter α) (lower : Nat) : ConstructResult (HintSize α) :=
  match try_min iterator lower with
  | .error _ => .panicked
  | r => r

/-- HintSize::hide (hint_size.rs lines 223-225): installs UNIVERSAL without
ever querying the size hint of the wrapped producer; it cannot fail. -/
def hide (iterator : RawIter α) : HintSize α :=
  { iterator := iterator.elems, hint := SizeHint.UNIVERSAL }

/-- Iterator::next for HintSize (hint_size.rs lines 248-256): on a yielded
item the stored hint is decremented; on None nothing changes. -/
def next (s : HintSize α) : Option α × HintSize α :=
  match s.iterator with
  | [] => (none, s)
  | item :: rest => (some item, { iterator := rest, hint := s.hint.decrement })

/-- DoubleEndedIterator::next_back for HintSize (hint_size.rs lines 266-274). -/
def next_back (s : HintSize α) : Option α × HintSize α :=
  match s.iterator.getLast? with
  | none => (none, s)
  | some item => (some item, { iterator := s.iterator.dropLast, hint := s.hint.decrement })

/-- Iterator::size_hint for HintSize (hint_size.rs lines 259-261). -/
def size_hint (s : HintSize α) : Nat × Option Nat :=
  s.hint.as_hint

/-- One poll from the chosen end: false is next, true is next_back. -/
def poll (s : HintSize α) (back : Bool) : Option α × HintSize α :=
  if back then s.next_back else s.next

/-- Runs a sequence of polls and counts how many yielded an element. -/
def runPolls : HintSize α → List Bool → HintSize α × Nat
  | s, [] => (s, 0)
  | s, e :: rest =>
    let step := s.poll e
    let tail := runPolls step.2 rest
    (tail.1, (if step.1.isSome then 1 else 0) + tail.2)

end HintSize

/-- C5: for all lower and upper, bounded SizeHint construction succeeds iff
lower ≤ upper, in which case the lower and upper fields round-trip the inputs
exactly; for lower > upper the fallible constructor returns InvalidSizeHint
and the panicking variant panics (modelled by none). -/
theorem C5_bounded_construction (lower upper : Nat) :
    (SizeHint.try_bounded lower upper =
      if lower ≤ upper then .ok { lower := lower, upper := some upper } else .error ⟨⟩)
    ∧ (SizeHint.bounded lower upper =
      if lower ≤ upper then some { lower := lower, upper := some upper } else none) := by
  by_cases h : lower ≤ upper
  · simp [SizeHint.bounded, SizeHint.try_bounded, h, show ¬ lower > upper by omega]
  · simp [SizeHint.bounded, SizeHint.try_bounded, h, show lower > upper by omega]

/-- C6: for every valid SizeHint, decrement reduces the lower bound, and the
upper bound when present, each by one with an independent floor at zero (Nat
subtraction is that floor), and the result is again valid; concretely
(0, some 3) decrements to (0, some 2), and decrementing (0, some 0) any
number of times yields (0, some 0). -/
theorem C6_decrement_saturating (s : SizeHint) (k : Nat) (hv : s.isValid = true) :
    s.decrement.lower = s.lower - 1
    ∧ s.decrement.upper = s.upper.map (fun u => u - 1)
    ∧ s.decrement.isValid = true
    ∧ SizeHint.decrement { lower := 0, upper := some 3 } = { lower := 0, upper := some 2 }
    ∧ SizeHint.decrement^[k] { lower := 0, upper := some 0 }
        = { lower := 0, upper := some 0 } := by
  refine ⟨rfl, rfl, ?_, rfl, ?_⟩
  · obtain ⟨l, u⟩ := s
    cases u with
    | none => rfl
    | some u =>
      simp [SizeHint.isValid, SizeHint.decrement] at hv ⊢
      omega
  · induction k with
    | zero => rfl
    | succ n ih => rw [Function.iterate_succ_apply]; exact ih

/-- C6 witness: the hypothesis holds and the conclusion evaluates at the valid
hint (1, some 4) with three iterations. -/
theorem C6_decrement_saturating_witness :
    (SizeHint.mk 1 (some 4)).isValid = true
    ∧ ((SizeHint.mk 1 (some 4)).decrement.lower = 1 - 1
      ∧ (SizeHint.mk 1 (some 4)).decrement.upper = (some 4).map (fun u => u - 1)
      ∧ (SizeHint.mk 1 (some 4)).decrement.isValid = true
      ∧ SizeHint.decrement { lower := 0, upper := some 3 } = { lower := 0, upper := some 2 }
      ∧ SizeHint.decrement^[3] { lower := 0, upper := some 0 }
          = { lower := 0, upper := some 0 }) :=
  ⟨by decide, C6_decrement_saturating ⟨1, some 4⟩ 3 (by decide)⟩

/-- C9: conversion of the half-open range a..b to a SizeHint succeeds with
lower a and upper some (b - 1) iff a < b; an empty range (including b = 0)
or an inverted range fails with InvalidSizeHint. -/
theorem C9_range_try_from (a b : Nat) :
    SizeHint.tryFromRange a b =
      if a < b then .ok { lower := a, upper := some (b - 1) } else .error ⟨⟩ := by
  by_cases hb : b < 1
  · simp [SizeHint.tryFromRange, SizeHint.checkedSub, hb, show ¬ a < b by omega]
  · by_cases h : a < b
    · simp [SizeHint.tryFromRange, SizeHint.checkedSub, SizeHint.try_bounded, hb, h,
        show ¬ a > b - 1 by omega]
    · simp [SizeHint.tryFromRange, SizeHint.checkedSub, SizeHint.try_bounded, hb, h,
        show a > b - 1 by omega]

/-- Helper: the contains test holds exactly when the count lies in the
interval the SizeHint denotes. -/
theorem SizeHint.contains_iff (s : SizeHint) (n : Nat) :
    s.contains n = true ↔ s.lower ≤ n ∧ ∀ u, s.upper = some u → n ≤ u := by
  obtain ⟨l, u⟩ := s
  cases u <;> simp [SizeHint.contains]

/-- C7: for valid SizeHints a and b, overlaps is true iff some count is
contained in both intervals; overlaps is commutative; disjoint is the
logical negation of overlaps. -/
theorem C7_overlaps_disjoint (a b : SizeHint)
    (ha : a.isValid = true) (hb : b.isValid = true) :
    (SizeHint.overlaps a b = true ↔ ∃ n, a.contains n = true ∧ b.contains n = true)
    ∧ SizeHint.overlaps a b = SizeHint.overlaps b a
    ∧ SizeHint.disjoint a b = !(SizeHint.overlaps a b) := by
  obtain ⟨al, au⟩ := a
  obtain ⟨bl, bu⟩ := b
  refine ⟨?_, ?_, rfl⟩
  · cases au with
    | none =>
      cases bu with
      | none =>
        simp [SizeHint.overlaps, SizeHint.contains, SizeHint.as_hint]
        exact ⟨al + bl, by omega, by omega⟩
      | some bu =>
        simp [SizeHint.overlaps, SizeHint.contains, SizeHint.as_hint,
          SizeHint.isValid] at hb ⊢
        constructor
        · intro h
          exact ⟨bu, by omega, by omega⟩
        · rintro ⟨n, h1, h2, h3⟩
          omega
    | some au =>
      cases bu with
      | none =>
        simp [SizeHint.overlaps, SizeHint.contains, SizeHint.as_hint,
          SizeHint.isValid] at ha ⊢
        constructor
        · intro h
          exact ⟨au, by omega, by omega⟩
        · rintro ⟨n, ⟨h1, h2⟩, h3⟩
          omega
      | some bu =>
        simp [SizeHint.overlaps, SizeHint.contains, SizeHint.as_hint,
          SizeHint.isValid] at ha hb ⊢
        constructor
        · rintro ⟨h1, h2⟩
          exact ⟨max al bl, by omega, by omega⟩
        · rintro ⟨n, ⟨h1, h2⟩, h3, h4⟩
          omega
  · cases au <;> cases bu <;>
      simp [SizeHint.overlaps, SizeHint.as_hint, Bool.and_comm]

/-- C7 witness: both hypotheses hold and the conclusion evaluates at the
valid hints (3, some 6) and (5, none). -/
theorem C7_overlaps_disjoint_witness :
    (SizeHint.mk 3 (some 6)).isValid = true
    ∧ (SizeHint.mk 5 none).isValid = true
    ∧ ((SizeHint.overlaps ⟨3, some 6⟩ ⟨5, none⟩ = true
        ↔ ∃ n, (SizeHint.mk 3 (some 6)).contains n = true
            ∧ (SizeHint.mk 5 none).contains n = true)
      ∧ SizeHint.overlaps ⟨3, some 6⟩ ⟨5, none⟩ = SizeHint.overlaps ⟨5, none⟩ ⟨3, some 6⟩
      ∧ SizeHint.disjoint ⟨3, some 6⟩ ⟨5, none⟩
          = !(SizeHint.overlaps ⟨3, some 6⟩ ⟨5, none⟩)) :=
  ⟨by decide, by decide, C7_overlaps_disjoint ⟨3, some 6⟩ ⟨5, none⟩ (by decide) (by decide)⟩

/-- C8: for a valid SizeHint a, subset_of a b is true iff every count
contained in a is contained in b; subset_of is reflexive; and whenever a is
unbounded and b is bounded, subset_of a b is false. -/
theorem C8_subset_of (a b : SizeHint) (ha : a.isValid = true) :
    (SizeHint.subset_of a b = true
      ↔ ∀ n, a.contains n = true → b.contains n = true)
    ∧ SizeHint.subset_of a a = true
    ∧ (a.upper = none → b.upper.isSome = true → SizeHint.subset_of a b = false) := by
  obtain ⟨al, au⟩ := a
  obtain ⟨bl, bu⟩ := b
  refine ⟨?_, ?_, ?_⟩
  · cases au with
    | none =>
      cases bu with
      | none =>
        simp [SizeHint.subset_of, SizeHint.contains, SizeHint.as_hint]
        constructor
        · intro h n hn
          omega
        · intro h
          exact h al (le_refl al)
      | some bu =>
        simp [SizeHint.subset_of, SizeHint.contains, SizeHint.as_hint]
        refine ⟨max al (bu + 1), ?_⟩
        omega
    | some au =>
      cases bu with
      | none =>
        simp [SizeHint.subset_of, SizeHint.contains, SizeHint.as_hint,
          SizeHint.isValid] at ha ⊢
        constructor
        · intro h n hn1 hn2
          omega
        · intro h
          exact h al (le_refl al) (by omega)
      | some bu =>
        simp [SizeHint.subset_of, SizeHint.contains, SizeHint.as_hint,
          SizeHint.isValid] at ha ⊢
        constructor
        · rintro ⟨h1, h2⟩ n hn1 hn2
          exact ⟨by omega, by omega⟩
        · intro h
          have h1 := h al (le_refl al) (by omega)
          have h2 := h au ha (le_refl au)
          omega
  · cases au <;> simp [SizeHint.subset_of, SizeHint.as_hint]
  · intro h1 h2
    cases au with
    | none =>
      cases bu with
      | none => simp at h2
      | some bu => simp [SizeHint.subset_of, SizeHint.as_hint]
    | some au => simp at h1

/-- C8 witness: the hypothesis holds and the conclusion evaluates at the
valid hints (4, some 6) and (3, some 9). -/
theorem C8_subset_of_witness :
    (SizeHint.mk 4 (some 6)).isValid = true
    ∧ ((SizeHint.subset_of ⟨4, some 6⟩ ⟨3, some 9⟩ = true
        ↔ ∀ n, (SizeHint.mk 4 (some 6)).contains n = true
            → (SizeHint.mk 3 (some 9)).contains n = true)
      ∧ SizeHint.subset_of ⟨4, some 6⟩ ⟨4, some 6⟩ = true
      ∧ ((SizeHint.mk 4 (some 6)).upper = none
          → (SizeHint.mk 3 (some 9)).upper.isSome = true
          → SizeHint.subset_of ⟨4, some 6⟩ ⟨3, some 9⟩ = false)) :=
  ⟨by decide, C8_subset_of ⟨4, some 6⟩ ⟨3, some 9⟩ (by decide)⟩

/-- Helper: a HintSize poll that yields nothing leaves the state unchanged. -/
theorem HintSize.pollHint_none {α : Type} (s : HintSize α) (e : Bool)
    (h : (s.poll e).1 = none) : (s.poll e).2 = s := by
  cases e with
  | false =>
    cases hIter : s.iterator with
    | nil => simp [HintSize.poll, HintSize.next, hIter]
    | cons x xs => simp [HintSize.poll, HintSize.next, hIter] at h
  | true =>
    cases hLast : s.iterator.getLast? with
    | none => simp [HintSize.poll, HintSize.next_back, hLast]
    | some x => simp [HintSize.poll, HintSize.next_back, hLast] at h

/-- Helper: a HintSize poll that yields an item decrements the stored hint. -/
theorem HintSize.pollHint_some {α : Type} (s : HintSize α) (e : Bool)
    (h : (s.poll e).1.isSome = true) : (s.poll e).2.hint = s.hint.decrement := by
  cases e with
  | false =>
    cases hIter : s.iterator with
    | nil => simp [HintSize.poll, HintSize.next, hIter] at h
    | cons x xs => simp [HintSize.poll, HintSize.next, hIter]
  | true =>
    cases hLast : s.iterator.getLast? with
    | none => simp [HintSize.poll, HintSize.next_back, hLast] at h
    | some x => simp [HintSize.poll, HintSize.next_back, hLast]

/-- Helper: over any poll sequence, the final stored hint of a HintSize is
decrement iterated as many times as polls succeeded. -/
theorem HintSize.runPolls_hint {α : Type} (s : HintSize α) (ends : List Bool) :
    (HintSize.runPolls s ends).1.hint
      = SizeHint.decrement^[(HintSize.runPolls s ends).2] s.hint := by
  induction ends generalizing s with
  | nil => rfl
  | cons e rest ih =>
    by_cases h : (s.poll e).1.isSome = true
    · simp only [HintSize.runPolls, h, if_true]
      rw [ih, HintSize.pollHint_some s e h, Nat.add_comm, Function.iterate_succ_apply]
    · have hn : (s.poll e).1 = none := by
        cases hv : (s.poll e).1 with
        | none => rfl
        | some x => rw [hv] at h; simp at h
      simp only [HintSize.runPolls, h, if_false]
      rw [ih, HintSize.pollHint_none s e hn]
      simp

/-- Helper: an ExactLen poll that yields nothing leaves the state unchanged. -/
theorem ExactLen.pollLen_none {α : Type} (s : ExactLen α) (e : Bool)
    (h : (s.poll e).1 = none) : (s.poll e).2 = s := by
  cases e with
  | false =>
    cases hIter : s.iterator with
    | nil => simp [ExactLen.poll, ExactLen.next, hIter]
    | cons x xs => simp [ExactLen.poll, ExactLen.next, hIter] at h
  | true =>
    cases hLast : s.iterator.getLast? with
    | none => simp [ExactLen.poll, ExactLen.next_back, hLast]
    | some x => simp [ExactLen.poll, ExactLen.next_back, hLast] at h

/-- Helper: an ExactLen poll that yields an item decrements the live count,
saturating at zero. -/
theorem ExactLen.pollLen_some {α : Type} (s : ExactLen α) (e : Bool)
    (h : (s.poll e).1.isSome = true) : (s.poll e).2.len = s.len - 1 := by
  cases e with
  | false =>
    cases hIter : s.iterator with
    | nil => simp [ExactLen.poll, ExactLen.next, hIter] at h
    | cons x xs => simp [ExactLen.poll, ExactLen.next, hIter]
  | true =>
    cases hLast : s.iterator.getLast? with
    | none => simp [ExactLen.poll, ExactLen.next_back, hLast] at h
    | some x => simp [ExactLen.poll, ExactLen.next_back, hLast]

/-- Helper: over any poll sequence, the final count of an ExactLen is the
initial count minus the number of successful polls, floored at zero. -/
theorem ExactLen.runPolls_len {α : Type} (s : ExactLen α) (ends : List Bool) :
    (ExactLen.runPolls s ends).1.len = s.len - (ExactLen.runPolls s ends).2 := by
  induction ends generalizing s with
  | nil => rfl
  | cons e rest ih =>
    by_cases h : (s.poll e).1.isSome = true
    · simp only [ExactLen.runPolls, h, if_true]
      rw [ih, ExactLen.pollLen_some s e h]
      omega
    · have hn : (s.poll e).1 = none := by
        cases hv : (s.poll e).1 with
        | none => rfl
        | some x => rw [hv] at h; simp at h
      simp only [ExactLen.runPolls, h, if_false]
      rw [ih, ExactLen.pollLen_none s e hn]
      simp

/-- C2: for the HintSize adaptor, the reported size hint is always the stored
hint, after any poll sequence with k successes the stored hint is decrement
iterated k times on the initial hint, and concretely the bounded hint
(2, some 5) over a four element sequence reports (0, some 1) once all four
elements are consumed in a mix of ends. -/
theorem C2_hint_size_decrements (s : HintSize Nat) (ends : List Bool) :
    HintSize.size_hint s = s.hint.as_hint
    ∧ (HintSize.runPolls s ends).1.hint
        = SizeHint.decrement^[(HintSize.runPolls s ends).2] s.hint
    ∧ HintSize.runPolls { iterator := [10, 20, 30, 40], hint := ⟨2, some 5⟩ }
        [false, true, false, true]
      = ({ iterator := [], hint := ⟨0, some 1⟩ }, 4) :=
  ⟨rfl, HintSize.runPolls_hint s ends, by decide⟩

/-- C3: for the ExactLen adaptor, the reported size hint is always the exact
pair of the live count, any poll sequence with k successes leaves the count
at the initial count minus k floored at zero, an exhausted wrapped iterator
yields nothing from either end and changes nothing, and concretely wrapping
the four element sequence of 1..5 with count 4 reports (4, some 4), then
(3, some 3) after one front consumption, reaches (0, some 0) after all four,
and stays empty under further polls. -/
theorem C3_exact_len (s : ExactLen Nat) (ends : List Bool) (n : Nat) :
    ExactLen.size_hint s = (s.len, some s.len)
    ∧ (ExactLen.runPolls s ends).1.len = s.len - (ExactLen.runPolls s ends).2
    ∧ ExactLen.next { iterator := ([] : List Nat), len := n }
        = (none, { iterator := [], len := n })
    ∧ ExactLen.next_back { iterator := ([] : List Nat), len := n }
        = (none, { iterator := [], len := n })
    ∧ ExactLen.size_hint { iterator := [1, 2, 3, 4], len := 4 } = (4, some 4)
    ∧ (ExactLen.next { iterator := [1, 2, 3, 4], len := 4 }).2
        = { iterator := [2, 3, 4], len := 3 }
    ∧ ExactLen.runPolls { iterator := [1, 2, 3, 4], len := 4 }
        [false, false, false, false, false, false]
      = ({ iterator := [], len := 0 }, 4) :=
  ⟨rfl, ExactLen.runPolls_len s ends, rfl, rfl, rfl, rfl, by decide⟩

/-- C10: for both adaptors, a poll on which the wrapped iterator yields
nothing leaves the whole adaptor state, in particular the stored count or
hint, unchanged; concretely the residual hint (0, some 1) left by the bounded
hint (2, some 5) over a four element sequence persists across further polls
from either end. -/
theorem C10_frame_on_empty (back : Bool) (sh : HintSize Nat) (se : ExactLen Nat) :
    ((HintSize.poll sh back).1 = none → (HintSize.poll sh back).2 = sh)
    ∧ ((ExactLen.poll se back).1 = none → (ExactLen.poll se back).2 = se)
    ∧ HintSize.runPolls { iterator := [1, 2, 3, 4], hint := ⟨2, some 5⟩ }
        [false, false, false, false, false, true, false]
      = ({ iterator := [], hint := ⟨0, some 1⟩ }, 4) :=
  ⟨HintSize.pollHint_none sh back, ExactLen.pollLen_none se back, by decide⟩

/-- C10 witness: at the exhausted states the polls yield nothing and the
states are unchanged. -/
theorem C10_frame_on_empty_witness :
    (HintSize.poll { iterator := ([] : List Nat), hint := ⟨0, some 1⟩ } false).1 = none
    ∧ (HintSize.poll { iterator := ([] : List Nat), hint := ⟨0, some 1⟩ } false).2
        = { iterator := [], hint := ⟨0, some 1⟩ }
    ∧ (ExactLen.poll { iterator := ([] : List Nat), len := 0 } true).1 = none
    ∧ (ExactLen.poll { iterator := ([] : List Nat), len := 0 } true).2
        = { iterator := [], len := 0 } :=
  ⟨rfl,
   (C10_frame_on_empty false { iterator := [], hint := ⟨0, some 1⟩ }
      { iterator := [], len := 0 }).1 rfl,
   rfl,
   (C10_frame_on_empty true { iterator := [], hint := ⟨0, some 1⟩ }
      { iterator := [], len := 0 }).2.1 rfl⟩

/-- C1 counterexample: with a wrapped producer reporting the malformed hint
(10, some 5), the fallible bounded HintSize constructor called with inverted
caller bounds returns the InvalidSizeHint error value instead of panicking,
and HintSize hide succeeds outright, returning the adaptor with the
UNIVERSAL hint; so not every entry point panics on a malformed wrapped hint. -/
theorem C1_counterexample :
    HintSize.try_new { elems := ([] : List Nat), size_hint := (10, some 5) } 5 3
      = .error ⟨⟩
    ∧ HintSize.hide { elems := ([] : List Nat), size_hint := (10, some 5) }
      = { iterator := [], hint := { lower := 0, upper := none } } :=
  ⟨rfl, rfl⟩

/-- C1 amended: when the wrapped producer reports a hint with lower > upper,
the entry points ExactLen try_new and new, HintSize new, min and try_min all
panic; HintSize try_new also panics provided the caller bounds satisfy
lower ≤ upper (with inverted caller bounds the caller error is returned
before the wrapped hint is inspected); and HintSize hide never validates,
succeeding with the UNIVERSAL hint. -/
theorem C1_malformed_wrapped_panics (elems : List Nat) (l u n lo up : Nat)
    (hinv : u < l) :
    ExactLen.try_new { elems := elems, size_hint := (l, some u) } n = .panicked
    ∧ ExactLen.new { elems := elems, size_hint := (l, some u) } n = .panicked
    ∧ HintSize.new { elems := elems, size_hint := (l, some u) } lo up = .panicked
    ∧ (lo ≤ up →
        HintSize.try_new { elems := elems, size_hint := (l, some u) } lo up = .panicked)
    ∧ HintSize.min { elems := elems, size_hint := (l, some u) } lo = .panicked
    ∧ HintSize.try_min { elems := elems, size_hint := (l, some u) } lo = .panicked
    ∧ HintSize.hide { elems := elems, size_hint := (l, some u) }
      = { iterator := elems, hint := SizeHint.UNIVERSAL } := by
  have hwrapped :
      SizeHint.try_from_hint (l, some u) = (.error ⟨⟩ : Except InvalidSizeHint SizeHint) := by
    simp [SizeHint.try_from_hint, SizeHint.try_bounded, show l > u by omega]
  refine ⟨?_, ?_, ?_, ?_, ?_, ?_, rfl⟩
  · simp [ExactLen.try_new, hwrapped]
  · simp [ExactLen.new, ExactLen.try_new, hwrapped]
  · by_cases hlo : lo ≤ up
    · simp [HintSize.new, HintSize.try_new, HintSize.try_new_impl,
        SizeHint.try_bounded, show ¬ lo > up by omega, hwrapped]
    · simp [HintSize.new, HintSize.try_new, SizeHint.try_bounded,
        show lo > up by omega]
  · intro hlo
    simp [HintSize.try_new, HintSize.try_new_impl, SizeHint.try_bounded,
      show ¬ lo > up by omega, hwrapped]
  · simp [HintSize.min, HintSize.try_min, HintSize.try_new_impl, hwrapped]
  · simp [HintSize.try_min, HintSize.try_new_impl, hwrapped]

/-- C1 witness: the hypotheses hold and the conclusion evaluates at the
malformed wrapped hint (10, some 5) of InvalidIterator, with declared count 1
and caller bounds 1 and 2. -/
theorem C1_malformed_wrapped_panics_witness :
    (5 : Nat) < 10
    ∧ (1 : Nat) ≤ 2
    ∧ ExactLen.try_new { elems := ([] : List Nat), size_hint := (10, some 5) } 1
        = .panicked
    ∧ ExactLen.new { elems := ([] : List Nat), size_hint := (10, some 5) } 1
        = .panicked
    ∧ HintSize.new { elems := ([] : List Nat), size_hint := (10, some 5) } 1 2
        = .panicked
    ∧ HintSize.try_new { elems := ([] : List Nat), size_hint := (10, some 5) } 1 2
        = .panicked
    ∧ HintSize.min { elems := ([] : List Nat), size_hint := (10, some 5) } 1
        = .panicked
    ∧ HintSize.try_min { elems := ([] : List Nat), size_hint := (10, some 5) } 1
        = .panicked
    ∧ HintSize.hide { elems := ([] : List Nat), size_hint := (10, some 5) }
        = { iterator := [], hint := SizeHint.UNIVERSAL } :=
  have h := C1_malformed_wrapped_panics [] 10 5 1 1 2 (by decide)
  ⟨by decide, by decide, h.1, h.2.1, h.2.2.1, h.2.2.2.1 (by decide),
    h.2.2.2.2.1, h.2.2.2.2.2.1, h.2.2.2.2.2.2⟩

/-- C4: for a wrapped producer whose reported hint forms the valid interval w,
the fallible ExactLen constructor succeeds exactly when the declared count n
is contained in w and returns InvalidSizeHint otherwise, while the panicking
form panics in that case; containment means w.lower ≤ n ≤ w.upper; and
concretely, a producer reporting (4, some 4) rejects declared counts 2
and 6. -/
theorem C4_exact_len_construction (elems : List Nat) (w : SizeHint) (n : Nat)
    (hw : w.isValid = true) :
    (ExactLen.try_new { elems := elems, size_hint := w.as_hint } n
      = if w.contains n then .ok { iterator := elems, len := n } else .error ⟨⟩)
    ∧ (ExactLen.new { elems := elems, size_hint := w.as_hint } n
      = if w.contains n then .ok { iterator := elems, len := n } else .panicked)
    ∧ (w.contains n = true ↔ w.lower ≤ n ∧ ∀ u, w.upper = some u → n ≤ u)
    ∧ ExactLen.try_new { elems := [1, 2, 3, 4], size_hint := (4, some 4) } 2
      = .error ⟨⟩
    ∧ ExactLen.try_new { elems := [1, 2, 3, 4], size_hint := (4, some 4) } 6
      = .error ⟨⟩ := by
  have hwrapped : SizeHint.try_from_hint w.as_hint
      = (.ok w : Except InvalidSizeHint SizeHint) := by
    obtain ⟨l, u⟩ := w
    cases u with
    | none => rfl
    | some u =>
      simp [SizeHint.isValid] at hw
      simp [SizeHint.as_hint, SizeHint.try_from_hint, SizeHint.try_bounded,
        show ¬ l > u by omega]
  refine ⟨?_, ?_, SizeHint.contains_iff w n, by decide, by decide⟩
  · by_cases hc : w.contains n
    · simp [ExactLen.try_new, hwrapped, hc]
    · simp [ExactLen.try_new, hwrapped, hc]
  · by_cases hc : w.contains n
    · simp [ExactLen.new, ExactLen.try_new, hwrapped, hc]
    · simp [ExactLen.new, ExactLen.try_new, hwrapped, hc]

/-- C4 witness: the hypothesis holds and the conclusion evaluates for the
wrapped interval (4, some 4) of the producer for 1..5 with declared
count 4. -/
theorem C4_exact_len_construction_witness :
    (SizeHint.mk 4 (some 4)).isValid = true
    ∧ ((ExactLen.try_new
          { elems := [1, 2, 3, 4], size_hint := (SizeHint.mk 4 (some 4)).as_hint } 4
        = if (SizeHint.mk 4 (some 4)).contains 4
          then .ok { iterator := [1, 2, 3, 4], len := 4 } else .error ⟨⟩)
      ∧ (ExactLen.new
          { elems := [1, 2, 3, 4], size_hint := (SizeHint.mk 4 (some 4)).as_hint } 4
        = if (SizeHint.mk 4 (some 4)).contains 4
          then .ok { iterator := [1, 2, 3, 4], len := 4 } else .panicked)
      ∧ ((SizeHint.mk 4 (some 4)).contains 4 = true
          ↔ (SizeHint.mk 4 (some 4)).lower ≤ 4
            ∧ ∀ u, (SizeHint.mk 4 (some 4)).upper = some u → 4 ≤ u)
      ∧ ExactLen.try_new { elems := [1, 2, 3, 4], size_hint := (4, some 4) } 2
        = .error ⟨⟩
      ∧ ExactLen.try_new { elems := [1, 2, 3, 4], size_hint := (4, some 4) } 6
        = .error ⟨⟩) :=
  ⟨by decide, C4_exact_len_construction [1, 2, 3, 4] ⟨4, some 4⟩ 4 (by decide)⟩
